import Mathlib

/-!
Shallow embedding of the `pool` package (channel.go): a bounded resource
pool over an FIFO idle store, with injected create / close / ping
callbacks, an idle timeout, and a release (shutdown) operation.

Modelling conventions:
  * Resources (`interface{}` values handed out by the pool) are `Res := Nat`;
    a possibly-nil resource argument is `Option Res` (`none` = Go `nil`).
  * User callback errors are error codes in `Nat`; the factory at its
    i-th invocation returns `Except Nat Res` (left = error code).
  * The idle channel `chan *idleConn` is a FIFO list (head = front of the
    queue) together with its capacity `cap` (`make(chan, MaxCap)`); a nil
    channel (released pool) is `none`.
  * Go `time.Time` is a `Nat` tick; each operation takes the current time
    as an argument.
  * Every invocation of the factory or of the close callback is recorded
    as an event, so that creation / destruction counts can be stated.
  * The sequential semantics is modelled (one caller at a time); the mutex
    is therefore not represented.
-/

namespace Pool

abbrev Res := Nat

/-- Errors returned by the pool, one constructor per distinct `error`
value produced in channel.go / pool.go. -/
inductive PoolErr where
  /-- `ErrClosed` ("pool is closed"). -/
  | closed
  /-- "connection is nil. rejecting". -/
  | nilConn
  /-- "invalid capacity settings". -/
  | capSettings
  /-- "invalid factory func settings". -/
  | factorySettings
  /-- "invalid close func settings". -/
  | closeSettings
  /-- "factory is not able to fill the pool: ..." wrapping the factory error. -/
  | factoryFill (e : Nat)
  /-- a user callback error surfaced unchanged to the caller. -/
  | user (e : Nat)
deriving DecidableEq, Repr

instance {α β : Type} [DecidableEq α] [DecidableEq β] :
    DecidableEq (Except α β) := fun a b =>
  match a, b with
  | .error e, .error f =>
    if h : e = f then .isTrue (congrArg Except.error h)
    else .isFalse (fun hh => h (Except.error.inj hh))
  | .ok r, .ok s =>
    if h : r = s then .isTrue (congrArg Except.ok h)
    else .isFalse (fun hh => h (Except.ok.inj hh))
  | .error _, .ok _ => .isFalse (fun hh => Except.noConfusion hh)
  | .ok _, .error _ => .isFalse (fun hh => Except.noConfusion hh)

/-- One invocation of a user callback: `create` is one call of the factory
(with its result), `destroy r` is one call of the close callback on `r`
(made whether or not that call then fails). -/
inductive Ev where
  | create (res : Except Nat Res)
  | destroy (r : Res)
deriving DecidableEq, Repr

/-- `idleConn`: one idle resource together with the time it was pushed. -/
structure IdleConn where
  conn : Res
  t : Nat
deriving DecidableEq, Repr

/-- `channelPool`: the pool state.  `conns = none` models the nil channel
of a released pool; `cap` is the channel capacity fixed at construction
(`make(chan *idleConn, MaxCap)`); `factory`, `close`, `ping` are the
callback fields (`none` = nil func). -/
structure channelPool where
  conns : Option (List IdleConn)
  cap : Nat
  factory : Option (Nat → Except Nat Res)
  close : Option (Res → Option Nat)
  ping : Option (Res → Option Nat)
  idleTimeout : Nat

/-- `Config`: the caller-supplied configuration record. -/
structure Config where
  InitialCap : Int
  MaxCap : Int
  Factory : Option (Nat → Except Nat Res)
  Close : Option (Res → Option Nat)
  Ping : Option (Res → Option Nat)
  IdleTimeout : Nat

/-- Method `Close` (discard one resource): nil resource is rejected; a nil
close callback makes it a no-op success; otherwise the close callback is
invoked and its result returned. -/
def channelPool.Close (c : channelPool) (conn : Option Res) :
    Except PoolErr Unit × List Ev :=
  match conn with
  | none => (.error .nilConn, [])
  | some r =>
    match c.close with
    | none => (.ok (), [])
    | some g =>
      match g r with
      | none => (.ok (), [.destroy r])
      | some e => (.error (.user e), [.destroy r])

/-- Outcome of method `Ping`: success, an error value, or the run-time
fault of calling a nil function value (`c.ping(conn)` with `c.ping = nil`),
which in Go aborts the caller. -/
inductive PingOut where
  | ok
  | err (e : PoolErr)
  | panicked
deriving DecidableEq, Repr

/-- Method `Ping` (validate one resource): nil resource is rejected, then
`c.ping(conn)` is called with no nil-callback guard, so a nil `ping`
field is a nil function call. -/
def channelPool.Ping (c : channelPool) (conn : Option Res) : PingOut :=
  match conn with
  | none => .err .nilConn
  | some r =>
    match c.ping with
    | none => .panicked
    | some f =>
      match f r with
      | none => .ok
      | some e => .err (.user e)

/-- Method `Put` (return one resource): nil is rejected; a released pool
(nil `conns`) delegates to method `Close`; otherwise a non-blocking send
of a fresh `idleConn` (success iff the channel is below capacity), the
full-channel default branch delegating to method `Close`. -/
def channelPool.Put (c : channelPool) (conn : Option Res) (now : Nat) :
    Except PoolErr Unit × channelPool × List Ev :=
  match conn with
  | none => (.error .nilConn, c, [])
  | some r =>
    match c.conns with
    | none =>
      let res := c.Close (some r)
      (res.1, c, res.2)
    | some l =>
      if l.length < c.cap then
        (.ok (), { c with conns := some (l ++ [⟨r, now⟩]) }, [])
      else
        let res := c.Close (some r)
        (res.1, c, res.2)

/-- Outcome of `Get`: a resource, an error, or divergence (the default
branch loops forever when the factory field is nil while the channel
snapshot is non-nil and empty — unreachable sequentially from a
constructed pool). -/
inductive GetOut where
  | ok (r : Res)
  | err (e : PoolErr)
  | diverge
deriving DecidableEq, Repr

/-- The `for { select ... } }` loop of `Get` over the snapshot of the
channel contents.  A received entry is first checked against the idle
timeout (strictly: `t.Add(timeout).Before(now)`), being closed via method
`Close` (result discarded) and the loop retried; then, when a ping
callback is set, `c.Ping` is called on it, a failure dropping the entry
(log only, no close) and retrying; otherwise the entry is returned.  An
empty channel takes the default branch: one factory call, whose result is
returned.  Returns (outcome, entries left in the channel, events). -/
def getLoop (c : channelPool) (now cnt : Nat) :
    List IdleConn → GetOut × List IdleConn × List Ev
  | [] =>
    match c.factory with
    | none => (.diverge, [], [])
    | some f =>
      match f cnt with
      | .error e => (.err (.user e), [], [.create (.error e)])
      | .ok r => (.ok r, [], [.create (.ok r)])
  | w :: rest =>
    if 0 < c.idleTimeout ∧ w.t + c.idleTimeout < now then
      let evs := (c.Close (some w.conn)).2
      let res := getLoop c now cnt rest
      (res.1, res.2.1, evs ++ res.2.2)
    else
      match c.ping with
      | some f =>
        match f w.conn with
        | some _ => getLoop c now cnt rest
        | none => (.ok w.conn, rest, [])
      | none => (.ok w.conn, rest, [])

/-- Method `Get` (borrow): snapshot the channel under the lock
(`getConns`); a nil snapshot is `ErrClosed`; otherwise run the
receive/default loop.  `cnt` indexes the next factory call. -/
def channelPool.Get (c : channelPool) (now cnt : Nat) :
    GetOut × channelPool × List Ev :=
  match c.conns with
  | none => (.err .closed, c, [])
  | some l =>
    let res := getLoop c now cnt l
    (res.1, { c with conns := some res.2.1 }, res.2.2)

/-- Method `Release` (shutdown): under the lock the channel and the three
callback fields are captured and nulled; an already-nil channel returns at
once; otherwise the channel is closed and drained, the captured close
callback being applied to every remaining entry with its error discarded
(each application recorded as a destroy event). -/
def channelPool.Release (c : channelPool) : channelPool × List Ev :=
  let c2 : channelPool :=
    { c with conns := none, factory := none, ping := none, close := none }
  match c.conns with
  | none => (c2, [])
  | some l => (c2, l.map (fun w => Ev.destroy w.conn))

/-- Method `Len`: `len` of the channel snapshot (`len(nil) = 0`). -/
def channelPool.Len (c : channelPool) : Nat :=
  match c.conns with
  | none => 0
  | some l => l.length

/-- The pre-warm loop of `NewChannelPool`: `InitialCap` factory calls,
each success pushed into the channel (a blocking send that cannot block,
the capacity being at least the initial count); a failure releases the
partially filled pool and fails with the wrapped factory error. -/
def prewarm (f : Nat → Except Nat Res) (now : Nat) :
    channelPool → Nat → Nat → Except PoolErr channelPool × List Ev
  | c, 0, _ => (.ok c, [])
  | c, n + 1, cnt =>
    match f cnt with
    | .error e => (.error (.factoryFill e), .create (.error e) :: (c.Release).2)
    | .ok r =>
      let c2 := { c with conns := c.conns.map (fun l => l ++ [⟨r, now⟩]) }
      let res := prewarm f now c2 n (cnt + 1)
      (res.1, .create (.ok r) :: res.2)

/-- `NewChannelPool`: validates the capacity bounds, then the presence of
the factory and close callbacks, before any resource is created; on
success allocates the channel with capacity `MaxCap` and pre-warms
`InitialCap` resources. -/
def NewChannelPool (cfg : Config) (now : Nat) :
    Except PoolErr channelPool × List Ev :=
  if cfg.InitialCap < 0 ∨ cfg.MaxCap ≤ 0 ∨ cfg.InitialCap > cfg.MaxCap then
    (.error .capSettings, [])
  else
    match cfg.Factory with
    | none => (.error .factorySettings, [])
    | some f =>
      match cfg.Close with
      | none => (.error .closeSettings, [])
      | some _ =>
        let c : channelPool :=
          { conns := some [], cap := cfg.MaxCap.toNat, factory := cfg.Factory,
            close := cfg.Close, ping := cfg.Ping, idleTimeout := cfg.IdleTimeout }
        prewarm f now c cfg.InitialCap.toNat 0

/-- Number of factory invocations recorded in an event list. -/
def createCount : List Ev → Nat
  | [] => 0
  | Ev.create _ :: rest => createCount rest + 1
  | Ev.destroy _ :: rest => createCount rest

/-- Number of close-callback invocations on resource `r` recorded in an
event list. -/
def destroyCount (r : Res) : List Ev → Nat
  | [] => 0
  | Ev.destroy s :: rest => (if s = r then 1 else 0) + destroyCount r rest
  | Ev.create _ :: rest => destroyCount r rest

/-- Multiplicity of `r` in a list of resources. -/
def resCount (r : Res) : List Res → Nat
  | [] => 0
  | s :: rest => (if s = r then 1 else 0) + resCount r rest

/-- A list built from `h` at `n` consecutive indices starting at `cnt`. -/
def idxList (h : Nat → α) : Nat → Nat → List α
  | 0, _ => []
  | n + 1, cnt => h cnt :: idxList h n (cnt + 1)

/-! ## Concrete fixtures used to witness and to refute claims -/

/-- A factory that always succeeds: its i-th call yields resource `100 + i`. -/
def factoryOk : Nat → Except Nat Res := fun i => .ok (100 + i)

/-- A close callback that always succeeds. -/
def closeOk : Res → Option Nat := fun _ => none

/-- A ping callback that always fails (error code 7). -/
def pingBad : Res → Option Nat := fun _ => some 7

/-- An open pool with two idle resources 1 and 2 (in FIFO order) and room
to spare. -/
def poolTwoIdle : channelPool :=
  { conns := some [⟨1, 0⟩, ⟨2, 0⟩], cap := 5, factory := some factoryOk,
    close := some closeOk, ping := none, idleTimeout := 0 }

/-- An open pool with one idle resource and an always-failing ping. -/
def poolOnePing : channelPool :=
  { conns := some [⟨1, 0⟩], cap := 5, factory := some factoryOk,
    close := some closeOk, ping := some pingBad, idleTimeout := 0 }

/-- An open pool with an empty idle store. -/
def poolEmpty : channelPool :=
  { conns := some [], cap := 2, factory := some factoryOk,
    close := some closeOk, ping := none, idleTimeout := 0 }

/-- An open pool with one idle resource, pushed at time 0, and a 3-tick
idle timeout. -/
def poolStale : channelPool :=
  { conns := some [⟨0, 0⟩], cap := 5, factory := some factoryOk,
    close := some closeOk, ping := none, idleTimeout := 3 }

/-- An open pool whose idle store is at capacity (two entries, cap 2). -/
def poolFull : channelPool :=
  { conns := some [⟨1, 0⟩, ⟨2, 0⟩], cap := 2, factory := some factoryOk,
    close := some closeOk, ping := none, idleTimeout := 0 }

/-- A valid configuration: initial 3, maximum 5, no ping, no timeout. -/
def cfg4 : Config :=
  { InitialCap := 3, MaxCap := 5, Factory := some factoryOk,
    Close := some closeOk, Ping := none, IdleTimeout := 0 }

/-- An invalid configuration (`MaxCap = 0`). -/
def cfgBad : Config :=
  { InitialCap := 0, MaxCap := 0, Factory := none, Close := none,
    Ping := none, IdleTimeout := 0 }

/-! ## Helper lemmas -/

/-- The pool state after `Release`: nil channel and nil callbacks. -/
theorem Release_fst (c : channelPool) :
    (c.Release).1 =
      { c with conns := none, factory := none, ping := none, close := none } := by
  cases h : c.conns <;> simp [channelPool.Release, h]

/-- Destroy events of a drain are counted by the multiplicity of the
resource among the drained entries. -/
theorem destroyCount_map_destroy (r : Res) (l : List IdleConn) :
    destroyCount r (l.map (fun w => Ev.destroy w.conn)) =
      resCount r (l.map (fun w => w.conn)) := by
  induction l with
  | nil => rfl
  | cons w rest ih => simp [destroyCount, resCount, ih]

/-- `createCount` is additive over append. -/
theorem createCount_append (a b : List Ev) :
    createCount (a ++ b) = createCount a + createCount b := by
  induction a with
  | nil => simp [createCount]
  | cons e rest ih =>
    cases e with
    | create res =>
      simp [createCount, ih]
      omega
    | destroy r => simp [createCount, ih]

/-- Drain events contain no factory invocation. -/
theorem createCount_map_destroy (l : List IdleConn) :
    createCount (l.map (fun w => Ev.destroy w.conn)) = 0 := by
  induction l with
  | nil => rfl
  | cons w rest ih => simp [createCount, ih]

/-! ## Claim theorems -/

/-- C1 counterexample: on a released pool, returning (Put) or discarding
(Close) resource 5 makes zero invocations of the destruction callback,
not exactly one as claimed, although it does succeed rather than return
`ClosedError`. -/
theorem put_after_release_no_destroy_cex :
    destroyCount 5 ((((poolTwoIdle.Release).1).Put (some 5) 0).2.2) = 0 ∧
    destroyCount 5 ((((poolTwoIdle.Release).1).Put (some 5) 0).2.2) ≠ 1 ∧
    (((poolTwoIdle.Release).1).Put (some 5) 0).1 = .ok () ∧
    destroyCount 5 ((((poolTwoIdle.Release).1).Close (some 5)).2) ≠ 1 := by
  decide

/-- C1 (amended): after `Release`, `Put` and `Close` with a non-null
resource invoke the destruction callback zero times — `Release` nulled the
`close` field and the `Close` method's nil-callback guard short-circuits —
and both return success (`nil`), never `ClosedError`. -/
theorem put_close_after_release_zero_destroy (c : channelPool) (r : Res)
    (now : Nat) :
    (((c.Release).1).Put (some r) now).1 = .ok () ∧
    (((c.Release).1).Put (some r) now).2.2 = [] ∧
    destroyCount r ((((c.Release).1).Put (some r) now).2.2) = 0 ∧
    (((c.Release).1).Close (some r)).1 = .ok () ∧
    (((c.Release).1).Close (some r)).2 = [] := by
  rw [Release_fst]
  exact ⟨rfl, rfl, rfl, rfl, rfl⟩

/-- C1 witness: the amended statement at the released two-idle pool with
resource 5. -/
theorem put_close_after_release_zero_destroy_witness :
    (((poolTwoIdle.Release).1).Put (some 5) 0).1 = .ok () ∧
    destroyCount 5 ((((poolTwoIdle.Release).1).Put (some 5) 0).2.2) = 0 :=
  ⟨(put_close_after_release_zero_destroy poolTwoIdle 5 0).1,
   (put_close_after_release_zero_destroy poolTwoIdle 5 0).2.2.1⟩

/-- C6: after `Release` has completed, every `Get` fails with
`ClosedError`: the channel snapshot is nil, and no resource is created or
returned (no events at all). -/
theorem get_after_release_closed (c : channelPool) (now cnt : Nat) :
    (((c.Release).1).Get now cnt).1 = GetOut.err .closed ∧
    (((c.Release).1).Get now cnt).2.2 = [] ∧
    ((c.Release).1).conns = none := by
  rw [Release_fst]
  exact ⟨rfl, rfl, rfl⟩

/-- C6 witness: the claim at the released two-idle pool. -/
theorem get_after_release_closed_witness :
    (((poolTwoIdle.Release).1).Get 0 0).1 = GetOut.err PoolErr.closed :=
  (get_after_release_closed poolTwoIdle 0 0).1

/-- C9: `Release` is idempotent.  The first call drains the store,
invoking the captured destruction callback exactly once per remaining
entry (per-resource destroy counts equal multiplicities in the drained
list), and nulls the channel; a second call observes the nil channel and
returns immediately with no further destruction. -/
theorem release_idempotent_drain_once (c : channelPool) (l : List IdleConn)
    (h : c.conns = some l) :
    (c.Release).2 = l.map (fun w => Ev.destroy w.conn) ∧
    (∀ r : Res, destroyCount r (c.Release).2 =
      resCount r (l.map (fun w => w.conn))) ∧
    ((c.Release).1).conns = none ∧
    ((c.Release).1).Release = ((c.Release).1, []) := by
  have h2 : (c.Release).2 = l.map (fun w => Ev.destroy w.conn) := by
    simp [channelPool.Release, h]
  refine ⟨h2, ?_, ?_, ?_⟩
  · intro r
    rw [h2, destroyCount_map_destroy]
  · rw [Release_fst]
  · rw [Release_fst]
    rfl

/-- C9 witness: releasing the at-capacity pool destroys its two idle
resources once each; the second release is a no-op. -/
theorem release_idempotent_drain_once_witness :
    (poolFull.Release).2 = [Ev.destroy 1, Ev.destroy 2] ∧
    destroyCount 1 (poolFull.Release).2 = 1 ∧
    ((poolFull.Release).1).Release = ((poolFull.Release).1, []) := by
  have h := release_idempotent_drain_once poolFull [⟨1, 0⟩, ⟨2, 0⟩] rfl
  exact ⟨h.1, (h.2.1 1).trans rfl, h.2.2.2⟩

/-- C10: `Ping` with a non-null resource calls `c.ping(conn)` with no
nil-callback guard, so a pool without a configured ping callback —
including every pool after `Release`, which nulls the callback — makes a
nil function call (a run-time fault) instead of returning; with a
configured callback it returns that callback's outcome; by contrast
`Close` guards its nil callback and degrades to a no-op success. -/
theorem ping_nil_callback_panics (c : channelPool) (r : Res)
    (p : Res → Option Nat) :
    (c.ping = none → c.Ping (some r) = PingOut.panicked) ∧
    ((c.Release).1).Ping (some r) = PingOut.panicked ∧
    (c.ping = some p → c.Ping (some r) =
      (match p r with
       | none => PingOut.ok
       | some e => PingOut.err (.user e))) ∧
    (c.close = none → c.Close (some r) = (.ok (), [])) := by
  refine ⟨?_, ?_, ?_, ?_⟩
  · intro h
    simp [channelPool.Ping, h]
  · rw [Release_fst]
    rfl
  · intro h
    simp [channelPool.Ping, h]
  · intro h
    simp [channelPool.Close, h]

/-- With an always-failing ping callback and the idle timeout disabled,
the receive loop of `Get` drops every snapshot entry without any close
call and ends in the default branch: one factory call, whose result is
the outcome. -/
theorem getLoop_pingFail (c : channelPool) (p : Res → Option Nat)
    (f : Nat → Except Nat Res) (now cnt : Nat)
    (hp : c.ping = some p) (hfail : ∀ r, (p r).isSome)
    (hf : c.factory = some f) (ht : c.idleTimeout = 0) :
    ∀ l : List IdleConn, getLoop c now cnt l =
      ((match f cnt with
        | .ok r => GetOut.ok r
        | .error e => GetOut.err (.user e)), [], [Ev.create (f cnt)]) := by
  intro l
  induction l with
  | nil =>
    cases hfc : f cnt <;> simp [getLoop, hf, hfc]
  | cons w rest ih =>
    obtain ⟨e, he⟩ := Option.isSome_iff_exists.mp (hfail w.conn)
    simp [getLoop, ht, hp, he, ih]

/-- C2 counterexample: with the always-failing ping callback, `Get` on
the one-idle pool pops resource 1, drops it with zero invocations of the
destruction callback (the claim says it is destroyed), and returns the
freshly created resource 100. -/
theorem get_pingFail_no_destroy_cex :
    (poolOnePing.Get 0 0).2.2 = [Ev.create (Except.ok 100)] ∧
    destroyCount 1 ((poolOnePing.Get 0 0).2.2) = 0 ∧
    destroyCount 1 ((poolOnePing.Get 0 0).2.2) ≠ 1 ∧
    (poolOnePing.Get 0 0).1 = GetOut.ok 100 := by
  decide

/-- C2 (amended): when validation of a popped idle entry fails, `Get`
drops that resource without invoking the destruction callback (the
failure is only logged) and retries; with an always-failing validation
callback, every `Get` therefore drops-and-retries until the idle store is
empty and then returns a freshly created resource, never a stale one: the
outcome is exactly the factory's result, the store is left empty, and the
only recorded callback invocation is the single factory call. -/
theorem get_pingFail_drops_without_destroy (c : channelPool)
    (l : List IdleConn) (p : Res → Option Nat) (f : Nat → Except Nat Res)
    (now cnt : Nat) (hc : c.conns = some l) (hp : c.ping = some p)
    (hfail : ∀ r, (p r).isSome) (hf : c.factory = some f)
    (ht : c.idleTimeout = 0) :
    (c.Get now cnt).2.2 = [Ev.create (f cnt)] ∧
    (∀ r : Res, destroyCount r (c.Get now cnt).2.2 = 0) ∧
    (c.Get now cnt).1 = (match f cnt with
      | .ok r => GetOut.ok r
      | .error e => GetOut.err (.user e)) ∧
    ((c.Get now cnt).2.1).conns = some [] := by
  have hl := getLoop_pingFail c p f now cnt hp hfail hf ht l
  refine ⟨?_, ?_, ?_, ?_⟩ <;> simp [channelPool.Get, hc, hl, destroyCount]

/-- C2 witness: the amended statement at the concrete one-idle pool with
the always-failing ping. -/
theorem get_pingFail_drops_without_destroy_witness :
    (poolOnePing.Get 0 0).2.2 = [Ev.create (Except.ok 100)] ∧
    (poolOnePing.Get 0 0).1 = GetOut.ok 100 ∧
    ((poolOnePing.Get 0 0).2.1).conns = some [] := by
  have h := get_pingFail_drops_without_destroy poolOnePing [⟨1, 0⟩] pingBad
    factoryOk 0 0 rfl rfl (fun r => rfl) rfl rfl
  exact ⟨h.1, h.2.2.1, h.2.2.2⟩

/-- C3 counterexample: the idle store is FIFO, not LIFO.  On the pool
already holding idle resources 1 and 2, returning resource 3 and then
immediately borrowing yields resource 1 — the oldest entry — not the
most recently returned resource 3. -/
theorem get_after_put_not_lifo_cex :
    (poolTwoIdle.Put (some 3) 0).1 = .ok () ∧
    (((poolTwoIdle.Put (some 3) 0).2.1).Get 0 0).1 ≠ GetOut.ok 3 ∧
    (((poolTwoIdle.Put (some 3) 0).2.1).Get 0 0).1 = GetOut.ok 1 := by
  refine ⟨rfl, by decide, by decide⟩

/-- C3 (amended): with no concurrent interference, idle-timeout disabled
and no ping callback, the `Get` issued immediately after a successful
`Put` returns the front (oldest) idle entry of the FIFO store; it is the
instance most recently returned exactly when that instance is the only
idle entry, i.e. when the store was empty before the `Put`. -/
theorem get_after_put_fifo (c : channelPool) (l : List IdleConn) (r : Res)
    (now now2 cnt : Nat) (hc : c.conns = some l) (hlen : l.length < c.cap)
    (hping : c.ping = none) (ht : c.idleTimeout = 0) :
    (((c.Put (some r) now).2.1).Get now2 cnt).1 =
      (match l with
       | [] => GetOut.ok r
       | w :: _ => GetOut.ok w.conn) := by
  have hput : (c.Put (some r) now).2.1 =
      { c with conns := some (l ++ [⟨r, now⟩]) } := by
    simp [channelPool.Put, hc, hlen]
  rw [hput]
  cases l with
  | nil => simp [channelPool.Get, getLoop, ht, hping]
  | cons w rest => simp [channelPool.Get, getLoop, ht, hping]

/-- C3 witness: the amended statement at the empty pool — the returned
resource 42 is the one the next borrow yields. -/
theorem get_after_put_fifo_witness :
    (((poolEmpty.Put (some 42) 0).2.1).Get 1 0).1 = GetOut.ok 42 :=
  get_after_put_fifo poolEmpty [] 42 0 1 0 rfl (by decide) rfl rfl

/-- With the idle timeout enabled, the receive loop of `Get` destroys
every stale snapshot entry via the close callback (whose error, success
or failure, is discarded) and, the store then being empty, makes exactly
one factory call whose result is the outcome. -/
theorem getLoop_allStale (c : channelPool) (g : Res → Option Nat)
    (f : Nat → Except Nat Res) (now cnt : Nat)
    (hg : c.close = some g) (hf : c.factory = some f)
    (ht : 0 < c.idleTimeout) :
    ∀ l : List IdleConn, (∀ w ∈ l, w.t + c.idleTimeout < now) →
      getLoop c now cnt l =
        ((match f cnt with
          | .ok r => GetOut.ok r
          | .error e => GetOut.err (.user e)), [],
         l.map (fun w => Ev.destroy w.conn) ++ [Ev.create (f cnt)]) := by
  intro l
  induction l with
  | nil =>
    intro _
    cases hfc : f cnt <;> simp [getLoop, hf, hfc]
  | cons w rest ih =>
    intro hst
    have h1 : w.t + c.idleTimeout < now := hst w (by simp)
    have hclose : (c.Close (some w.conn)).2 = [Ev.destroy w.conn] := by
      cases hgw : g w.conn <;> simp [channelPool.Close, hg, hgw]
    simp [getLoop, ht, h1, hclose, ih (fun x hx => hst x (by simp [hx]))]

/-- C7: when the idle timeout `T` is positive and every idle entry is
stale (`t + T` strictly in the past) at the time of the borrow, `Get`
destroys each popped entry via the close callback — whatever that
callback returns, nothing of it is propagated — and, the store then being
empty, returns the result of exactly one fresh factory call. -/
theorem get_stale_evicts_then_creates (c : channelPool) (l : List IdleConn)
    (g : Res → Option Nat) (f : Nat → Except Nat Res) (now cnt : Nat)
    (hc : c.conns = some l) (hg : c.close = some g) (hf : c.factory = some f)
    (ht : 0 < c.idleTimeout) (hstale : ∀ w ∈ l, w.t + c.idleTimeout < now) :
    (c.Get now cnt).2.2 =
      l.map (fun w => Ev.destroy w.conn) ++ [Ev.create (f cnt)] ∧
    createCount (c.Get now cnt).2.2 = 1 ∧
    (c.Get now cnt).1 = (match f cnt with
      | .ok r => GetOut.ok r
      | .error e => GetOut.err (.user e)) ∧
    ((c.Get now cnt).2.1).conns = some [] := by
  have hl := getLoop_allStale c g f now cnt hg hf ht l hstale
  have h2 : (c.Get now cnt).2.2 =
      l.map (fun w => Ev.destroy w.conn) ++ [Ev.create (f cnt)] := by
    simp [channelPool.Get, hc, hl]
  refine ⟨h2, ?_, ?_, ?_⟩
  · rw [h2, createCount_append, createCount_map_destroy]
    rfl
  · simp [channelPool.Get, hc, hl]
  · simp [channelPool.Get, hc, hl]

/-- C7 witness: at time 10 the single idle entry of the 3-tick-timeout
pool (pushed at time 0) is evicted with one destroy call and the borrow
returns the freshly created resource 100, with exactly one creation
call. -/
theorem get_stale_evicts_then_creates_witness :
    (poolStale.Get 10 0).2.2 = [Ev.destroy 0, Ev.create (Except.ok 100)] ∧
    createCount (poolStale.Get 10 0).2.2 = 1 ∧
    (poolStale.Get 10 0).1 = GetOut.ok 100 := by
  have h := get_stale_evicts_then_creates poolStale [⟨0, 0⟩] closeOk factoryOk
    10 0 rfl rfl rfl (by decide) (by decide)
  exact ⟨h.1, h.2.1, h.2.2.1⟩

/-- C8: a `Put` of a non-null resource into an open pool whose store is at
capacity does not overflow the store: the non-blocking send fails, the
destruction callback is invoked on the resource, the caller receives that
callback's outcome (never `ClosedError`), the state is unchanged and
`Len` remains at capacity. -/
theorem put_full_destroys_len_preserved (c : channelPool) (l : List IdleConn)
    (g : Res → Option Nat) (r : Res) (now : Nat)
    (hc : c.conns = some l) (hlen : l.length = c.cap) (hg : c.close = some g) :
    (c.Put (some r) now).1 = (match g r with
      | none => Except.ok ()
      | some e => Except.error (.user e)) ∧
    (c.Put (some r) now).1 ≠ Except.error PoolErr.closed ∧
    (c.Put (some r) now).2.2 = [Ev.destroy r] ∧
    ((c.Put (some r) now).2.1).Len = c.cap := by
  have hnotlt : ¬ l.length < c.cap := by omega
  refine ⟨?_, ?_, ?_, ?_⟩
  · cases hgr : g r <;>
      simp [channelPool.Put, hc, hnotlt, channelPool.Close, hg, hgr]
  · cases hgr : g r <;>
      simp [channelPool.Put, hc, hnotlt, channelPool.Close, hg, hgr]
  · cases hgr : g r <;>
      simp [channelPool.Put, hc, hnotlt, channelPool.Close, hg, hgr]
  · simp [channelPool.Put, hc, hnotlt, channelPool.Close, hg, channelPool.Len,
      hlen]

/-- C8 witness: putting resource 9 into the at-capacity pool destroys it,
succeeds, and leaves `Len` at the capacity 2. -/
theorem put_full_destroys_len_preserved_witness :
    (poolFull.Put (some 9) 1).1 = Except.ok () ∧
    (poolFull.Put (some 9) 1).2.2 = [Ev.destroy 9] ∧
    ((poolFull.Put (some 9) 1).2.1).Len = 2 := by
  have h := put_full_destroys_len_preserved poolFull [⟨1, 0⟩, ⟨2, 0⟩] closeOk
    9 1 rfl rfl rfl
  exact ⟨h.1, h.2.2.1, h.2.2.2⟩

/-- C10 witness: on the released two-idle pool (ping callback nulled),
`Ping` on resource 4 hits the nil function call, while `Close` on the same
pool is a guarded no-op success. -/
theorem ping_nil_callback_panics_witness :
    ((poolTwoIdle.Release).1).Ping (some 4) = PingOut.panicked ∧
    ((poolTwoIdle.Release).1).Close (some 4) = (.ok (), []) :=
  ⟨(ping_nil_callback_panics (poolTwoIdle.Release).1 4 (fun _ => none)).1 rfl,
   (ping_nil_callback_panics (poolTwoIdle.Release).1 4 (fun _ => none)).2.2.2 rfl⟩

/-- An `idxList` has as many elements as indices. -/
theorem idxList_length {α : Type} (h : Nat → α) (n cnt : Nat) :
    (idxList h n cnt).length = n := by
  induction n generalizing cnt with
  | zero => rfl
  | succ n ih => simp [idxList, ih]

/-- An `idxList` of creation events counts `n` factory invocations. -/
theorem createCount_idx (f : Nat → Res) (n cnt : Nat) :
    createCount (idxList (fun i => Ev.create (Except.ok (f i))) n cnt) = n := by
  induction n generalizing cnt with
  | zero => rfl
  | succ n ih => simp [idxList, createCount, ih]

/-- The pre-warm loop with an always-succeeding factory: `n` factory
calls at indices `cnt, cnt+1, ...`, each pushed onto the back of the
channel with the construction timestamp. -/
theorem prewarm_ok (f : Nat → Res) (now : Nat) :
    ∀ (n cnt : Nat) (c : channelPool),
      prewarm (fun i => Except.ok (f i)) now c n cnt =
        (Except.ok
          { c with
            conns :=
              c.conns.map
                (fun l => l ++ idxList (fun i => IdleConn.mk (f i) now) n cnt) },
         idxList (fun i => Ev.create (Except.ok (f i))) n cnt) := by
  intro n
  induction n with
  | zero =>
    intro cnt c
    cases c with
    | mk conns cap factory close ping idleTimeout =>
      cases conns <;> simp [prewarm, idxList]
  | succ n ih =>
    intro cnt c
    cases c with
    | mk conns cap factory close ping idleTimeout =>
      cases conns <;> simp [prewarm, idxList, ih (cnt + 1)]

/-- C4: successful construction with a non-negative initial count within
a positive maximum invokes the factory exactly `InitialCap` times (the
event list is precisely those creation calls, in order), pushes each
created resource into the idle store with the construction timestamp, and
yields a pool whose `Len` equals the initial count. -/
theorem newChannelPool_prewarm_count (cfg : Config) (now : Nat)
    (f : Nat → Res) (g : Res → Option Nat)
    (h1 : 0 ≤ cfg.InitialCap) (h2 : 0 < cfg.MaxCap)
    (h3 : cfg.InitialCap ≤ cfg.MaxCap)
    (hf : cfg.Factory = some (fun i => Except.ok (f i)))
    (hcl : cfg.Close = some g) :
    (NewChannelPool cfg now).2 =
      idxList (fun i => Ev.create (Except.ok (f i))) cfg.InitialCap.toNat 0 ∧
    createCount (NewChannelPool cfg now).2 = cfg.InitialCap.toNat ∧
    (∃ p : channelPool,
      (NewChannelPool cfg now).1 = Except.ok p ∧
      p.Len = cfg.InitialCap.toNat ∧
      p.conns = some
        (idxList (fun i => IdleConn.mk (f i) now) cfg.InitialCap.toNat 0)) := by
  have hcond : ¬ (cfg.InitialCap < 0 ∨ cfg.MaxCap ≤ 0 ∨
      cfg.InitialCap > cfg.MaxCap) := by omega
  have hnew : NewChannelPool cfg now =
      (Except.ok
        { conns :=
            some (idxList (fun i => IdleConn.mk (f i) now) cfg.InitialCap.toNat 0),
          cap := cfg.MaxCap.toNat, factory := cfg.Factory, close := cfg.Close,
          ping := cfg.Ping, idleTimeout := cfg.IdleTimeout },
       idxList (fun i => Ev.create (Except.ok (f i))) cfg.InitialCap.toNat 0) := by
    simp only [NewChannelPool, if_neg hcond, hf, hcl]
    simp [prewarm_ok f now cfg.InitialCap.toNat 0, hf, hcl]
  refine ⟨?_, ?_, ?_⟩
  · rw [hnew]
  · rw [hnew]
    exact createCount_idx f cfg.InitialCap.toNat 0
  · refine
      ⟨{ conns :=
           some (idxList (fun i => IdleConn.mk (f i) now) cfg.InitialCap.toNat 0),
         cap := cfg.MaxCap.toNat, factory := cfg.Factory, close := cfg.Close,
         ping := cfg.Ping, idleTimeout := cfg.IdleTimeout }, ?_, ?_, rfl⟩
    · rw [hnew]
    · simp [channelPool.Len, idxList_length]

/-- C4 witness: constructing with the valid configuration (initial 3,
maximum 5) makes exactly the three creation calls, in order, and the
resulting event count is 3. -/
theorem newChannelPool_prewarm_count_witness :
    (NewChannelPool cfg4 9).2 =
      [Ev.create (Except.ok 100), Ev.create (Except.ok 101),
       Ev.create (Except.ok 102)] ∧
    createCount (NewChannelPool cfg4 9).2 = 3 := by
  have h := newChannelPool_prewarm_count cfg4 9 (fun i => 100 + i) closeOk
    (by decide) (by decide) (by decide) rfl rfl
  exact ⟨h.1, h.2.1⟩

/-- C5: construction fails with the corresponding `ConfigError` for each
of `MaxCap ≤ 0`, `InitialCap < 0`, `InitialCap > MaxCap`, a missing
factory callback and a missing close callback; the check precedes any
resource creation, so in every failure case the event list is empty —
zero creation and zero destruction calls — and no pool is returned. -/
theorem newChannelPool_config_errors (cfg : Config) (now : Nat) :
    (cfg.MaxCap ≤ 0 →
      NewChannelPool cfg now = (Except.error .capSettings, [])) ∧
    (cfg.InitialCap < 0 →
      NewChannelPool cfg now = (Except.error .capSettings, [])) ∧
    (cfg.InitialCap > cfg.MaxCap →
      NewChannelPool cfg now = (Except.error .capSettings, [])) ∧
    (0 ≤ cfg.InitialCap → 0 < cfg.MaxCap → cfg.InitialCap ≤ cfg.MaxCap →
      cfg.Factory = none →
      NewChannelPool cfg now = (Except.error .factorySettings, [])) ∧
    (∀ f, 0 ≤ cfg.InitialCap → 0 < cfg.MaxCap → cfg.InitialCap ≤ cfg.MaxCap →
      cfg.Factory = some f → cfg.Close = none →
      NewChannelPool cfg now = (Except.error .closeSettings, [])) := by
  refine ⟨?_, ?_, ?_, ?_, ?_⟩
  · intro h
    simp only [NewChannelPool]
    rw [if_pos (Or.inr (Or.inl h))]
  · intro h
    simp only [NewChannelPool]
    rw [if_pos (Or.inl h)]
  · intro h
    simp only [NewChannelPool]
    rw [if_pos (Or.inr (Or.inr h))]
  · intro h1 h2 h3 hfac
    simp only [NewChannelPool]
    rw [if_neg (by omega), hfac]
  · intro f h1 h2 h3 hfac hcl
    simp only [NewChannelPool]
    rw [if_neg (by omega), hfac, hcl]

/-- C5 witness: the configuration with `MaxCap = 0` is rejected with the
capacity `ConfigError` and an empty event list. -/
theorem newChannelPool_config_errors_witness :
    NewChannelPool cfgBad 0 = (Except.error PoolErr.capSettings, []) :=
  (newChannelPool_config_errors cfgBad 0).1 (by decide)

end Pool
